import Mathlib

/-!
Verification of the procurement subsystem of the predictive-maintenance
repository: the parts-list parser, the stock lookup, and the order
reconciler implemented in
`agents/tool-procurement/src/procurement_mcp.py`.

The Python code is shallowly embedded: strings are Lean `String`s handled
as `List Char`, Python `int` is `Int`, the SQL `numeric` unit cost is `ℚ`,
the database table is a lookup function `String → Option StockRecord`,
and a fallible database connection is `Except String`-valued (an error
models the exception message that reaches the boundary handler).

Regular-expression matching in the source uses only disjoint character
classes at each backtracking point, so the greedy (maximal-munch)
matchers below are faithful to Python `re` semantics on these patterns.
`\s`, `\d` and letter classes are modelled over their ASCII ranges.
-/

/-- ASCII whitespace, as matched by Python `\s` and stripped by `str.strip`
(space, tab, newline, carriage return, vertical tab, form feed). -/
def pyIsSpace (c : Char) : Bool :=
  c == ' ' || c == '\t' || c == '\n' || c == '\r' || c == Char.ofNat 11 || c == Char.ofNat 12

/-- Greedy run of characters satisfying `p` (the part a `p*` or `p+` regex
piece consumes). -/
def takeW (p : Char → Bool) : List Char → List Char
  | [] => []
  | c :: cs => if p c then c :: takeW p cs else []

/-- Remainder after the greedy run of `p`. -/
def dropW (p : Char → Bool) : List Char → List Char
  | [] => []
  | c :: cs => if p c then dropW p cs else c :: cs

/-- Python `str.strip()`: remove whitespace at both ends. -/
def pyStrip (cs : List Char) : List Char :=
  ((dropW pyIsSpace ((dropW pyIsSpace cs).reverse)).reverse)

/-- Python `str.split('\n')`: split at every newline, keeping empty pieces. -/
def splitLines : List Char → List (List Char)
  | [] => [[]]
  | c :: cs =>
    if c = '\n' then [] :: splitLines cs
    else
      match splitLines cs with
      | [] => [[c]]
      | l :: ls => (c :: l) :: ls

/-- `re.sub(r'^[\s]*[-•*]\s*', '', line)` — remove one leading bullet
marker together with surrounding whitespace; leave the line unchanged
when the anchored pattern does not match. -/
def stripBullet (cs : List Char) : List Char :=
  match dropW pyIsSpace cs with
  | [] => cs
  | c :: rest =>
    if c = '-' || c = '•' || c = '*' then dropW pyIsSpace rest else cs

/-- `re.sub(r'^[\s]*\d+[\.\)]\s*', '', line)` — remove one leading
numbered-list marker (digits followed by `.` or `)`); leave the line
unchanged when the anchored pattern does not match. -/
def stripNumber (cs : List Char) : List Char :=
  if (takeW Char.isDigit (dropW pyIsSpace cs)).isEmpty then cs
  else
    match dropW Char.isDigit (dropW pyIsSpace cs) with
    | [] => cs
    | c :: rest => if c = '.' || c = ')' then dropW pyIsSpace rest else cs

/-- Exactly `n` digits (the `\d{n}` regex piece): on success returns the
digits consumed and the rest of the input. -/
def matchNDigits : Nat → List Char → Option (List Char × List Char)
  | 0, cs => some ([], cs)
  | _ + 1, [] => none
  | n + 1, c :: cs =>
    if c.isDigit then
      match matchNDigits n cs with
      | some (ds, rest) => some (c :: ds, rest)
      | none => none
    else none

/-- The single-character regex piece: consume exactly the character `x`
at the head of the input. -/
def matchChar (x : Char) : List Char → Option (List Char)
  | [] => none
  | c :: r => if c = x then some r else none

/-- The part-code piece `[A-Z]+-\d{3}-\d{2}` under `re.IGNORECASE`
(so: ASCII letters of either case), anchored at the head of the input.
Returns the matched characters and the rest. -/
def matchPartCode (cs : List Char) : Option (List Char × List Char) :=
  if (takeW Char.isAlpha cs).isEmpty then none
  else
    match matchChar '-' (dropW Char.isAlpha cs) with
    | none => none
    | some r1 =>
      match matchNDigits 3 r1 with
      | none => none
      | some (d3, r2) =>
        match matchChar '-' r2 with
        | none => none
        | some r3 =>
          match matchNDigits 2 r3 with
          | none => none
          | some (d2, r4) =>
            some (takeW Char.isAlpha cs ++ '-' :: (d3 ++ '-' :: d2), r4)

/-- The whole-line pattern `^(PART)\s*SEP\s*(\d+)(?:\s*[a-zA-Z]+)?$` with
separator character `sep` (`:` for pattern A, `-` for pattern B).
Returns the part-code characters and the quantity digits. -/
def matchPartQty (sep : Char) (cs : List Char) : Option (List Char × List Char) :=
  match matchPartCode cs with
  | none => none
  | some (part, r1) =>
    match matchChar sep (dropW pyIsSpace r1) with
    | none => none
    | some r3 =>
      if (takeW Char.isDigit (dropW pyIsSpace r3)).isEmpty then none
      else
        match dropW Char.isDigit (dropW pyIsSpace r3) with
        | [] => some (part, takeW Char.isDigit (dropW pyIsSpace r3))
        | _ =>
          if (takeW Char.isAlpha (dropW pyIsSpace
              (dropW Char.isDigit (dropW pyIsSpace r3)))).isEmpty then none
          else
            match dropW Char.isAlpha (dropW pyIsSpace
                (dropW Char.isDigit (dropW pyIsSpace r3))) with
            | [] => some (part, takeW Char.isDigit (dropW pyIsSpace r3))
            | _ => none

/-- Pattern A of the parser:
`^([A-Z]+-\d{3}-\d{2})\s*:\s*(\d+)(?:\s*[a-zA-Z]+)?$`, `re.IGNORECASE`. -/
def matchPatternA (cs : List Char) : Option (List Char × List Char) :=
  matchPartQty ':' cs

/-- Pattern B of the parser:
`^([A-Z]+-\d{3}-\d{2})\s*-\s*(\d+)(?:\s*[a-zA-Z]+)?$`, `re.IGNORECASE`. -/
def matchPatternB (cs : List Char) : Option (List Char × List Char) :=
  matchPartQty '-' cs

/-- Numeric value of one ASCII digit character. -/
def digitVal (c : Char) : Nat := c.toNat - '0'.toNat

/-- Python `int(...)` on a string of ASCII digits. -/
def digitsToNat (ds : List Char) : Nat :=
  ds.foldl (fun a c => 10 * a + digitVal c) 0

/-- The parsed quantity as a Python integer. -/
def digitsToInt (ds : List Char) : Int := (digitsToNat ds : Int)

/-- `':' in line` (Python substring test for the one-character colon). -/
def hasColon (cs : List Char) : Bool := cs.any (fun c => c == ':')

/-- One iteration of the parser loop in `parse_parts_list` (lines 50-74
of `procurement_mcp.py`): strip the line, skip it when empty or without
a colon, strip list markers, then try pattern A and pattern B. -/
def parseLine (cs : List Char) : Option (String × Int) :=
  if (pyStrip cs).isEmpty then none
  else if !hasColon (pyStrip cs) then none
  else
    match matchPatternA (pyStrip (stripNumber (stripBullet (pyStrip cs)))) with
    | some (part, ds) => some (String.mk part, digitsToInt ds)
    | none =>
      match matchPatternB (pyStrip (stripNumber (stripBullet (pyStrip cs)))) with
      | some (part, ds) => some (String.mk part, digitsToInt ds)
      | none => none

/-- `parse_parts_list` (lines 34-76): strip the whole text, split it into
lines, and collect the `(part_number, quantity)` pairs of the lines that
parse. -/
def parse_parts_list (parts_text : String) : List (String × Int) :=
  (splitLines (pyStrip parts_text.data)).filterMap parseLine

/-- A row of the `procurement.parts_stock` table (the columns selected by
the two tools). -/
structure StockRecord where
  part_number : String
  description : String
  current_stock : Int
  minimum_stock : Int
  reorder_point : Int
  unit_cost : ℚ
  supplier : String
deriving DecidableEq, Repr

/-- The per-part dictionary appended to `stock_status` in
`check_parts_stock` (lines 130-151). -/
structure StockAssessment where
  part_number : String
  description : String
  quantity_needed : Int
  current_stock : Int
  status : String
  needs_order : Bool
  unit_cost : ℚ
  supplier : String
deriving DecidableEq, Repr

/-- The reference-data store: `SELECT ... FROM procurement.parts_stock
WHERE part_number = %s`, returning at most one row. -/
def Store : Type := String → Option StockRecord

/-- The loop body of `check_parts_stock` (lines 100-151): fetch the record
for one `(part_number, quantity_needed)` request and classify it. -/
def assessPart (store : Store) (p : String × Int) : StockAssessment :=
  match store p.1 with
  | some r =>
    if r.current_stock ≥ p.2 then
      { part_number := r.part_number, description := r.description,
        quantity_needed := p.2, current_stock := r.current_stock,
        status := "IN STOCK", needs_order := false,
        unit_cost := r.unit_cost, supplier := r.supplier }
    else if r.current_stock ≥ r.reorder_point then
      { part_number := r.part_number, description := r.description,
        quantity_needed := p.2, current_stock := r.current_stock,
        status := "LOW STOCK", needs_order := true,
        unit_cost := r.unit_cost, supplier := r.supplier }
    else
      { part_number := r.part_number, description := r.description,
        quantity_needed := p.2, current_stock := r.current_stock,
        status := "OUT OF STOCK", needs_order := true,
        unit_cost := r.unit_cost, supplier := r.supplier }
  | none =>
    { part_number := p.1, description := "Not in procurement system",
      quantity_needed := p.2, current_stock := 0,
      status := "NOT FOUND", needs_order := true,
      unit_cost := 0, supplier := "Unknown" }

/-- The `stock_status` list built by `check_parts_stock`. -/
def stockStatus (store : Store) (parts : List (String × Int)) : List StockAssessment :=
  parts.map (assessPart store)

/-- The per-part dictionary appended to `parts_to_order` in
`generate_procurement_order` (lines 216-239). -/
structure OrderLine where
  part_number : String
  description : String
  quantity_needed : Int
  current_stock : Int
  order_quantity : Int
  unit_cost : ℚ
  total_cost : ℚ
  supplier : String
deriving DecidableEq, Repr

/-- The per-part order decision of `generate_procurement_order`
(lines 205-239): a found part is ordered only when
`current_stock < quantity_needed`, with the reorder-point buffer of 2;
a missing part is always ordered with a flat buffer of 2. -/
def orderForPart (store : Store) (p : String × Int) : Option OrderLine :=
  match store p.1 with
  | some r =>
    if r.current_stock < p.2 then
      let base := p.2 - r.current_stock
      let oq := if r.current_stock < r.reorder_point
                then max base (r.reorder_point - r.current_stock + 2)
                else base
      some { part_number := r.part_number, description := r.description,
             quantity_needed := p.2, current_stock := r.current_stock,
             order_quantity := oq, unit_cost := r.unit_cost,
             total_cost := (oq : ℚ) * r.unit_cost, supplier := r.supplier }
    else none
  | none =>
    some { part_number := p.1, description := "Not in procurement system",
           quantity_needed := p.2, current_stock := 0,
           order_quantity := p.2 + 2, unit_cost := 0,
           total_cost := 0, supplier := "Unknown" }

/-- One iteration of the ordering loop (lines 189-239), threading the
`parts_to_order` list and the `total_cost` accumulator exactly as the
source does: the found branch adds `order_quantity * unit_cost`, the
not-found branch appends its line without touching the total. -/
def orderStep (store : Store) (acc : List OrderLine × ℚ) (p : String × Int) :
    List OrderLine × ℚ :=
  match store p.1 with
  | some r =>
    if r.current_stock < p.2 then
      let base := p.2 - r.current_stock
      let oq := if r.current_stock < r.reorder_point
                then max base (r.reorder_point - r.current_stock + 2)
                else base
      (acc.1 ++ [{ part_number := r.part_number, description := r.description,
                   quantity_needed := p.2, current_stock := r.current_stock,
                   order_quantity := oq, unit_cost := r.unit_cost,
                   total_cost := (oq : ℚ) * r.unit_cost, supplier := r.supplier }],
       acc.2 + (oq : ℚ) * r.unit_cost)
    else acc
  | none =>
    (acc.1 ++ [{ part_number := p.1, description := "Not in procurement system",
                 quantity_needed := p.2, current_stock := 0,
                 order_quantity := p.2 + 2, unit_cost := 0,
                 total_cost := 0, supplier := "Unknown" }],
     acc.2)

/-- The `parts_to_order` list and `total_cost` computed by
`generate_procurement_order` (lines 185-239). -/
def generateOrder (store : Store) (parts : List (String × Int)) :
    List OrderLine × ℚ :=
  parts.foldl (orderStep store) ([], 0)

/-- The cost contribution of one order line to the aggregate. -/
def lineCost (l : OrderLine) : ℚ := (l.order_quantity : ℚ) * l.unit_cost

/-- The user-facing message returned when the parsed-parts list is empty
(lines 90 and 180). -/
def noValidPartsMsg : String :=
  "Error: No valid parts found in the input. Expected format: 'PART-XXX-XX: X units' per line"

/-- Rendering of one stock-status table row (line 158; presentation only,
the spec places the exact textual layout out of scope). -/
def renderStockRow (a : StockAssessment) : String :=
  "| " ++ a.part_number ++ " | " ++ String.mk (a.description.data.take 30) ++ "... | " ++
    toString a.quantity_needed ++ " | " ++ toString a.current_stock ++ " | " ++
    a.status ++ " | $" ++ toString a.unit_cost ++ " | " ++ a.supplier ++ " |\n"

/-- Rendering of the stock-analysis report (lines 95-158; presentation). -/
def renderStockReport (n : Nat) (status : List StockAssessment) : String :=
  "## Parts Stock Analysis\n\n**Parts to check:** " ++ toString n ++ "\n\n" ++
    "| Part Number | Description | Needed | Current | Status | Unit Cost | Supplier |\n" ++
    "|-------------|-------------|--------|---------|--------|-----------|----------|\n" ++
    String.join (status.map renderStockRow)

/-- A fallible store: `Except.error e` models a database/lookup exception
whose message `e` reaches the boundary handler; `Except.ok` models a
connection serving every per-part query. -/
def StoreBehaviour : Type := Except String Store

/-- The body of `check_parts_stock` (lines 86-163) before the boundary
`except` handler: an `Except.error` is an uncaught exception. -/
def checkPartsStockE (store : StoreBehaviour) (parts_list : String) :
    Except String String :=
  let parts_needed := parse_parts_list parts_list
  if parts_needed.isEmpty then Except.ok noValidPartsMsg
  else
    match store with
    | Except.error e => Except.error e
    | Except.ok lookup =>
      Except.ok (renderStockReport parts_needed.length (stockStatus lookup parts_needed))

/-- `check_parts_stock` (lines 78-166): the boundary handler converts any
exception into `"Error checking parts stock: ..."`. -/
def check_parts_stock (store : StoreBehaviour) (parts_list : String) : String :=
  match checkPartsStockE store parts_list with
  | Except.ok s => s
  | Except.error e => "Error checking parts stock: " ++ e

/-- Rendering of one procurement-order table row (lines 257-261;
presentation). -/
def renderOrderRow (l : OrderLine) : String :=
  if l.unit_cost > 0 then
    "| " ++ l.part_number ++ " | " ++ String.mk (l.description.data.take 25) ++ "... | " ++
      toString l.quantity_needed ++ " | " ++ toString l.current_stock ++ " | " ++
      toString l.order_quantity ++ " | $" ++ toString l.unit_cost ++ " | $" ++
      toString l.total_cost ++ " | " ++ l.supplier ++ " |\n"
  else
    "| " ++ l.part_number ++ " | " ++ String.mk (l.description.data.take 25) ++ "... | " ++
      toString l.quantity_needed ++ " | " ++ toString l.current_stock ++ " | " ++
      toString l.order_quantity ++ " | N/A | N/A | " ++ l.supplier ++ " |\n"

/-- Rendering of the procurement order (lines 247-274; presentation —
the order date line is omitted, being wall-clock output). -/
def renderOrderReport (lines : List OrderLine) (total : ℚ) : String :=
  "## Procurement Order\n\n**Total Parts to Order:** " ++ toString lines.length ++
    "\n\n**Parts to Order:**\n\n" ++
    "| Part Number | Description | Needed | Current | Order Qty | Unit Cost | Total Cost | Supplier |\n" ++
    "|-------------|-------------|--------|---------|-----------|-----------|------------|----------|\n" ++
    String.join (lines.map renderOrderRow) ++
    "\n**Order Summary:**\n- **Total Parts:** " ++ toString lines.length ++
    "\n- **Estimated Total Cost:** $" ++ toString total ++
    "\n- **Priority:** High (Maintenance Required)\n"

/-- The message returned when nothing needs ordering (line 242). -/
def noOrderNeededMsg : String :=
  "## Procurement Order Status\n\nAll parts are in stock. No procurement order needed."

/-- The body of `generate_procurement_order` (lines 176-287) before the
boundary `except` handler. -/
def generateOrderE (store : StoreBehaviour) (parts_list : String) :
    Except String String :=
  let parts_needed := parse_parts_list parts_list
  if parts_needed.isEmpty then Except.ok noValidPartsMsg
  else
    match store with
    | Except.error e => Except.error e
    | Except.ok lookup =>
      let po := generateOrder lookup parts_needed
      if po.1.isEmpty then Except.ok noOrderNeededMsg
      else Except.ok (renderOrderReport po.1 po.2)

/-- `generate_procurement_order` (lines 168-290): the boundary handler
converts any exception into `"Error generating procurement order: ..."`. -/
def generate_procurement_order (store : StoreBehaviour) (parts_list : String) : String :=
  match generateOrderE store parts_list with
  | Except.ok s => s
  | Except.error e => "Error generating procurement order: " ++ e

/-! ### Basic lemmas about the greedy character-run helpers -/

lemma takeW_app {p : Char → Bool} {xs : List Char} (ys : List Char)
    (h : ∀ x ∈ xs, p x = true) :
    takeW p (xs ++ ys) = xs ++ takeW p ys := by
  induction xs with
  | nil => simp
  | cons a t ih =>
    have ha : p a = true := h a (List.mem_cons_self a t)
    simp only [List.cons_append, takeW, ha, if_true, List.append_eq]
    rw [ih (fun x hx => h x (List.mem_cons_of_mem a hx))]

lemma dropW_app {p : Char → Bool} {xs : List Char} (ys : List Char)
    (h : ∀ x ∈ xs, p x = true) :
    dropW p (xs ++ ys) = dropW p ys := by
  induction xs with
  | nil => simp
  | cons a t ih =>
    have ha : p a = true := h a (List.mem_cons_self a t)
    simp only [List.cons_append, dropW, ha, if_true, List.append_eq]
    exact ih (fun x hx => h x (List.mem_cons_of_mem a hx))

lemma takeW_head_false {p : Char → Bool} {c : Char} (cs : List Char) (h : p c = false) :
    takeW p (c :: cs) = [] := by
  simp [takeW, h]

lemma dropW_head_false {p : Char → Bool} {c : Char} (cs : List Char) (h : p c = false) :
    dropW p (c :: cs) = c :: cs := by
  simp [dropW, h]

lemma takeW_eq_self {p : Char → Bool} {xs : List Char} (h : ∀ x ∈ xs, p x = true) :
    takeW p xs = xs := by
  have := @takeW_app p xs [] h
  simpa [takeW] using this

lemma dropW_eq_nil {p : Char → Bool} {xs : List Char} (h : ∀ x ∈ xs, p x = true) :
    dropW p xs = [] := by
  have := @dropW_app p xs [] h
  simpa [dropW] using this

lemma dropW_eq_self {p : Char → Bool} {cs : List Char}
    (h : ∀ c, cs.head? = some c → p c = false) : dropW p cs = cs := by
  cases cs with
  | nil => rfl
  | cons a t => exact dropW_head_false t (h a rfl)

lemma takeW_append_dropW (p : Char → Bool) (cs : List Char) :
    takeW p cs ++ dropW p cs = cs := by
  induction cs with
  | nil => rfl
  | cons a t ih =>
    by_cases ha : p a
    · simp [takeW, dropW, ha, ih]
    · simp [takeW, dropW, ha]

lemma mem_takeW {p : Char → Bool} {cs : List Char} {c : Char}
    (h : c ∈ takeW p cs) : p c = true := by
  induction cs with
  | nil => simp [takeW] at h
  | cons a t ih =>
    by_cases ha : p a
    · simp only [takeW, ha, if_true, List.mem_cons] at h
      rcases h with rfl | h
      · exact ha
      · exact ih h
    · simp [takeW, ha] at h

lemma mem_dropW {p : Char → Bool} {cs : List Char} {c : Char}
    (h : c ∈ cs) (hc : p c = false) : c ∈ dropW p cs := by
  induction cs with
  | nil => simp at h
  | cons a t ih =>
    by_cases ha : p a
    · simp only [dropW, ha, if_true]
      rcases List.mem_cons.mp h with rfl | h2
      · rw [ha] at hc; cases hc
      · exact ih h2
    · simpa [dropW, ha] using h

/-! ### Lemmas about stripping and line splitting -/

lemma pyStrip_eq_self {cs : List Char}
    (h1 : ∀ c, cs.head? = some c → pyIsSpace c = false)
    (h2 : ∀ c, cs.getLast? = some c → pyIsSpace c = false) : pyStrip cs = cs := by
  unfold pyStrip
  rw [dropW_eq_self h1]
  rw [dropW_eq_self (fun c hc => h2 c (by rwa [List.head?_reverse] at hc))]
  exact List.reverse_reverse cs

lemma mem_pyStrip {cs : List Char} {c : Char}
    (h : c ∈ cs) (hc : pyIsSpace c = false) : c ∈ pyStrip cs := by
  unfold pyStrip
  rw [List.mem_reverse]
  exact mem_dropW (List.mem_reverse.mpr (mem_dropW h hc)) hc

lemma splitLines_single {cs : List Char} (h : ∀ c ∈ cs, c ≠ '\n') :
    splitLines cs = [cs] := by
  induction cs with
  | nil => rfl
  | cons a t ih =>
    have ha : a ≠ '\n' := h a (List.mem_cons_self a t)
    simp only [splitLines, if_neg ha, ih (fun c hc => h c (List.mem_cons_of_mem a hc))]

/-! ### Facts about the ASCII character classes -/

lemma space_not_alpha {c : Char} (h : pyIsSpace c = true) : c.isAlpha = false := by
  simp only [pyIsSpace, Bool.or_eq_true, beq_iff_eq] at h
  rcases h with ((((rfl | rfl) | rfl) | rfl) | rfl) | rfl <;> decide

lemma space_not_digit {c : Char} (h : pyIsSpace c = true) : c.isDigit = false := by
  simp only [pyIsSpace, Bool.or_eq_true, beq_iff_eq] at h
  rcases h with ((((rfl | rfl) | rfl) | rfl) | rfl) | rfl <;> decide

lemma alpha_not_space {c : Char} (h : c.isAlpha = true) : pyIsSpace c = false := by
  cases hs : pyIsSpace c
  · rfl
  · rw [space_not_alpha hs] at h; cases h

lemma digit_not_space {c : Char} (h : c.isDigit = true) : pyIsSpace c = false := by
  cases hs : pyIsSpace c
  · rfl
  · rw [space_not_digit hs] at h; cases h

lemma alpha_ne {c d : Char} (h : c.isAlpha = true) (hd : d.isAlpha = false) : c ≠ d := by
  intro he
  rw [he, hd] at h
  cases h

lemma alpha_not_digit {c : Char} (h : c.isAlpha = true) : c.isDigit = false := by
  cases hd : c.isDigit
  · rfl
  · exfalso
    simp only [Char.isDigit, Bool.and_eq_true, decide_eq_true_eq, ge_iff_le] at hd
    simp only [Char.isAlpha, Char.isUpper, Char.isLower, Bool.or_eq_true,
      Bool.and_eq_true, decide_eq_true_eq, ge_iff_le] at h
    rcases h with ⟨h1, _⟩ | ⟨h1, _⟩
    · exact absurd (UInt32.le_trans h1 hd.2) (by decide)
    · exact absurd (UInt32.le_trans h1 hd.2) (by decide)

lemma hasColon_iff {cs : List Char} : hasColon cs = true ↔ ':' ∈ cs := by
  simp only [hasColon, List.any_eq_true, beq_iff_eq]
  constructor
  · rintro ⟨x, hx, rfl⟩; exact hx
  · intro h; exact ⟨':', h, rfl⟩

/-! ### Completeness and soundness of the regex matchers -/

lemma matchNDigits_app {ds : List Char} (rest : List Char)
    (hd : ∀ c ∈ ds, c.isDigit = true) :
    matchNDigits ds.length (ds ++ rest) = some (ds, rest) := by
  induction ds with
  | nil => rfl
  | cons a t ih =>
    have ha : a.isDigit = true := hd a (List.mem_cons_self a t)
    simp only [List.length_cons, List.cons_append, matchNDigits, ha, if_true,
      List.append_eq]
    rw [ih (fun c hc => hd c (List.mem_cons_of_mem a hc))]

lemma matchNDigits_sound {n : Nat} {cs ds r : List Char}
    (h : matchNDigits n cs = some (ds, r)) :
    cs = ds ++ r ∧ ∀ c ∈ ds, c.isDigit = true := by
  induction n generalizing cs ds r with
  | zero =>
    simp only [matchNDigits, Option.some.injEq, Prod.mk.injEq] at h
    obtain ⟨rfl, rfl⟩ := h
    exact ⟨rfl, by simp⟩
  | succ m ih =>
    cases cs with
    | nil => simp [matchNDigits] at h
    | cons a t =>
      by_cases ha : a.isDigit
      · simp only [matchNDigits, ha, if_true] at h
        cases hm : matchNDigits m t with
        | none => rw [hm] at h; cases h
        | some p =>
          obtain ⟨ds0, r0⟩ := p
          rw [hm] at h
          simp only [Option.some.injEq, Prod.mk.injEq] at h
          obtain ⟨rfl, rfl⟩ := h
          obtain ⟨ht, hds⟩ := ih hm
          refine ⟨by rw [ht]; rfl, ?_⟩
          intro c hc
          rcases List.mem_cons.mp hc with rfl | hc2
          · exact ha
          · exact hds c hc2
      · simp [matchNDigits, ha] at h

lemma matchChar_complete (x : Char) (r : List Char) : matchChar x (x :: r) = some r := by
  simp [matchChar]

lemma matchChar_sound {x : Char} {cs r : List Char} (h : matchChar x cs = some r) :
    cs = x :: r := by
  cases cs with
  | nil => exact absurd h (by simp [matchChar])
  | cons a t =>
    by_cases ha : a = x
    · subst ha
      simp [matchChar] at h
      rw [h]
    · simp [matchChar, ha] at h

lemma matchPartCode_complete {ls d3 d2 : List Char} (rest : List Char)
    (hls : ls ≠ []) (hla : ∀ c ∈ ls, c.isAlpha = true)
    (h3 : d3.length = 3) (h3d : ∀ c ∈ d3, c.isDigit = true)
    (h2 : d2.length = 2) (h2d : ∀ c ∈ d2, c.isDigit = true) :
    matchPartCode (ls ++ '-' :: (d3 ++ '-' :: (d2 ++ rest))) =
      some (ls ++ '-' :: (d3 ++ '-' :: d2), rest) := by
  unfold matchPartCode
  rw [takeW_app _ hla, takeW_head_false _ (by decide),
    dropW_app _ hla, dropW_head_false _ (by decide)]
  obtain ⟨a, t, rfl⟩ := List.exists_cons_of_ne_nil hls
  have e3 := matchNDigits_app ('-' :: (d2 ++ rest)) h3d
  rw [h3] at e3
  have e2 := matchNDigits_app rest h2d
  rw [h2] at e2
  simp [matchChar_complete, e3, e2]

lemma matchPartQty_complete_plain {ls d3 d2 qs : List Char} (sep : Char)
    (hsep : pyIsSpace sep = false)
    (hls : ls ≠ []) (hla : ∀ c ∈ ls, c.isAlpha = true)
    (h3 : d3.length = 3) (h3d : ∀ c ∈ d3, c.isDigit = true)
    (h2 : d2.length = 2) (h2d : ∀ c ∈ d2, c.isDigit = true)
    (hqs : qs ≠ []) (hqd : ∀ c ∈ qs, c.isDigit = true) :
    matchPartQty sep (ls ++ '-' :: (d3 ++ '-' :: (d2 ++ sep :: ' ' :: qs))) =
      some (ls ++ '-' :: (d3 ++ '-' :: d2), qs) := by
  obtain ⟨q, qt, rfl⟩ := List.exists_cons_of_ne_nil hqs
  have hq : q.isDigit = true := hqd q (List.mem_cons_self q qt)
  have hpc := matchPartCode_complete (sep :: ' ' :: q :: qt) hls hla h3 h3d h2 h2d
  have hdw : dropW pyIsSpace (sep :: ' ' :: q :: qt) = sep :: ' ' :: q :: qt :=
    dropW_head_false _ hsep
  have hq1 : dropW pyIsSpace (' ' :: q :: qt) = q :: qt := by
    simp only [dropW, if_pos (show pyIsSpace ' ' = true from by decide)]
    exact dropW_head_false _ (digit_not_space hq)
  have hds : takeW Char.isDigit (q :: qt) = q :: qt := takeW_eq_self hqd
  have hdd : dropW Char.isDigit (q :: qt) = [] := dropW_eq_nil hqd
  unfold matchPartQty
  rw [hpc]
  simp [matchChar_complete, hdw, hq1, hds, hdd]

lemma matchPartQty_complete_word {ls d3 d2 qs ws : List Char} (sep : Char)
    (hsep : pyIsSpace sep = false)
    (hls : ls ≠ []) (hla : ∀ c ∈ ls, c.isAlpha = true)
    (h3 : d3.length = 3) (h3d : ∀ c ∈ d3, c.isDigit = true)
    (h2 : d2.length = 2) (h2d : ∀ c ∈ d2, c.isDigit = true)
    (hqs : qs ≠ []) (hqd : ∀ c ∈ qs, c.isDigit = true)
    (hws : ws ≠ []) (hwa : ∀ c ∈ ws, c.isAlpha = true) :
    matchPartQty sep (ls ++ '-' :: (d3 ++ '-' :: (d2 ++ sep :: ' ' :: (qs ++ ' ' :: ws)))) =
      some (ls ++ '-' :: (d3 ++ '-' :: d2), qs) := by
  obtain ⟨q, qt, rfl⟩ := List.exists_cons_of_ne_nil hqs
  obtain ⟨w, wt, rfl⟩ := List.exists_cons_of_ne_nil hws
  have hq : q.isDigit = true := hqd q (List.mem_cons_self q qt)
  have hw : w.isAlpha = true := hwa w (List.mem_cons_self w wt)
  have hpc := matchPartCode_complete (sep :: ' ' :: ((q :: qt) ++ ' ' :: w :: wt))
    hls hla h3 h3d h2 h2d
  rw [List.cons_append] at hpc
  have hdw : dropW pyIsSpace (sep :: ' ' :: q :: (qt ++ ' ' :: w :: wt)) =
      sep :: ' ' :: q :: (qt ++ ' ' :: w :: wt) :=
    dropW_head_false _ hsep
  have hq1 : dropW pyIsSpace (' ' :: q :: (qt ++ ' ' :: w :: wt)) =
      q :: (qt ++ ' ' :: w :: wt) := by
    simp only [dropW, if_pos (show pyIsSpace ' ' = true from by decide)]
    exact dropW_head_false _ (digit_not_space hq)
  have hds : takeW Char.isDigit (q :: (qt ++ ' ' :: w :: wt)) = q :: qt := by
    rw [← List.cons_append, takeW_app _ hqd, takeW_head_false _ (by decide)]
    simp
  have hdd : dropW Char.isDigit (q :: (qt ++ ' ' :: w :: wt)) = ' ' :: w :: wt := by
    rw [← List.cons_append, dropW_app _ hqd]
    exact dropW_head_false _ (by decide)
  have hw1 : dropW pyIsSpace (' ' :: w :: wt) = w :: wt := by
    simp only [dropW, if_pos (show pyIsSpace ' ' = true from by decide)]
    exact dropW_head_false _ (alpha_not_space hw)
  have hwt : takeW Char.isAlpha (w :: wt) = w :: wt := takeW_eq_self hwa
  have hwd : dropW Char.isAlpha (w :: wt) = [] := dropW_eq_nil hwa
  unfold matchPartQty
  simp only [List.cons_append]
  rw [hpc]
  simp [matchChar_complete, hdw, hq1, hds, hdd, hw1, hwt, hwd]

lemma matchPartCode_sound {cs part r : List Char}
    (h : matchPartCode cs = some (part, r)) :
    cs = part ++ r ∧ ∀ c ∈ part, (c.isAlpha = true ∨ c.isDigit = true ∨ c = '-') := by
  unfold matchPartCode at h
  split at h
  · cases h
  · split at h
    case h_1 => cases h
    case h_2 r1 heq1 =>
      split at h
      case h_1 => cases h
      case h_2 d3 r2 heq2 =>
        split at h
        case h_1 => cases h
        case h_2 r3 heq3 =>
          split at h
          case h_1 => cases h
          case h_2 d2 r4 heq4 =>
            simp only [Option.some.injEq, Prod.mk.injEq] at h
            obtain ⟨rfl, rfl⟩ := h
            have he1 : dropW Char.isAlpha cs = '-' :: r1 := matchChar_sound heq1
            have he3 : r2 = '-' :: r3 := matchChar_sound heq3
            obtain ⟨he2, hd3⟩ := matchNDigits_sound heq2
            obtain ⟨he4, hd2⟩ := matchNDigits_sound heq4
            constructor
            · conv_lhs => rw [← takeW_append_dropW Char.isAlpha cs]
              rw [he1, he2, he3, he4]
              simp
            · intro c hc
              simp only [List.mem_append, List.mem_cons] at hc
              rcases hc with hc | rfl | hc | rfl | hc
              · exact Or.inl (mem_takeW hc)
              · exact Or.inr (Or.inr rfl)
              · exact Or.inr (Or.inl (hd3 c hc))
              · exact Or.inr (Or.inr rfl)
              · exact Or.inr (Or.inl (hd2 c hc))

lemma matchPartQty_chars {sep : Char} {cs : List Char} {x : List Char × List Char}
    (h : matchPartQty sep cs = some x) :
    ∀ c ∈ cs, (c.isAlpha = true ∨ c.isDigit = true ∨ pyIsSpace c = true ∨ c = '-' ∨ c = sep) := by
  unfold matchPartQty at h
  split at h
  · cases h
  case h_2 part r1 heq1 =>
    obtain ⟨hcs, hpart⟩ := matchPartCode_sound heq1
    split at h
    case h_1 => cases h
    case h_2 r3 heq2 =>
      have he2 : dropW pyIsSpace r1 = sep :: r3 := matchChar_sound heq2
      split at h
      · cases h
      case isFalse hne =>
        have hr1 : r1 = takeW pyIsSpace r1 ++ (sep :: r3) := by
          conv_lhs => rw [← takeW_append_dropW pyIsSpace r1]
          rw [he2]
        have hr3 : r3 = takeW pyIsSpace r3 ++ dropW pyIsSpace r3 :=
          (takeW_append_dropW pyIsSpace r3).symm
        have hr4 : dropW pyIsSpace r3 =
            takeW Char.isDigit (dropW pyIsSpace r3) ++
              dropW Char.isDigit (dropW pyIsSpace r3) :=
          (takeW_append_dropW Char.isDigit (dropW pyIsSpace r3)).symm
        have htail : ∀ c ∈ dropW Char.isDigit (dropW pyIsSpace r3),
            (c.isAlpha = true ∨ c.isDigit = true ∨ pyIsSpace c = true ∨
              c = '-' ∨ c = sep) := by
          split at h
          case h_1 heqz =>
            intro c hc
            rw [heqz] at hc
            cases hc
          case h_2 =>
            split at h
            · cases h
            case isFalse hw =>
              split at h
              case h_2 => cases h
              case h_1 hw0 =>
                intro c hc
                have h5 : dropW Char.isDigit (dropW pyIsSpace r3) =
                    takeW pyIsSpace (dropW Char.isDigit (dropW pyIsSpace r3)) ++
                      dropW pyIsSpace (dropW Char.isDigit (dropW pyIsSpace r3)) :=
                  (takeW_append_dropW pyIsSpace _).symm
                have h6 : dropW pyIsSpace (dropW Char.isDigit (dropW pyIsSpace r3)) =
                    takeW Char.isAlpha (dropW pyIsSpace
                        (dropW Char.isDigit (dropW pyIsSpace r3))) ++
                      dropW Char.isAlpha (dropW pyIsSpace
                        (dropW Char.isDigit (dropW pyIsSpace r3))) :=
                  (takeW_append_dropW Char.isAlpha _).symm
                rw [hw0, List.append_nil] at h6
                rw [h5, h6] at hc
                rcases List.mem_append.mp hc with hc | hc
                · exact Or.inr (Or.inr (Or.inl (mem_takeW hc)))
                · exact Or.inl (mem_takeW hc)
        intro c hc
        rw [hcs] at hc
        rcases List.mem_append.mp hc with hc | hc
        · rcases hpart c hc with hp | hp | hp
          · exact Or.inl hp
          · exact Or.inr (Or.inl hp)
          · exact Or.inr (Or.inr (Or.inr (Or.inl hp)))
        · rw [hr1] at hc
          rcases List.mem_append.mp hc with hc | hc
          · exact Or.inr (Or.inr (Or.inl (mem_takeW hc)))
          · rcases List.mem_cons.mp hc with rfl | hc
            · exact Or.inr (Or.inr (Or.inr (Or.inr rfl)))
            · rw [hr3] at hc
              rcases List.mem_append.mp hc with hc | hc
              · exact Or.inr (Or.inr (Or.inl (mem_takeW hc)))
              · rw [hr4] at hc
                rcases List.mem_append.mp hc with hc | hc
                · exact Or.inr (Or.inl (mem_takeW hc))
                · exact htail c hc

/-! ### Lemmas about the per-line processing of the parser -/

lemma mem_stripBullet {cs : List Char} (h : ':' ∈ cs) : ':' ∈ stripBullet cs := by
  unfold stripBullet
  split
  · exact h
  case h_2 c0 rest hdw =>
    split
    case isTrue hb =>
      have hmem : ':' ∈ c0 :: rest := by rw [← hdw]; exact mem_dropW h (by decide)
      have hr : ':' ∈ rest := by
        rcases List.mem_cons.mp hmem with he | he
        · exfalso
          simp only [Bool.or_eq_true, decide_eq_true_eq] at hb
          rcases hb with (rfl | rfl) | rfl <;> exact absurd he (by decide)
        · exact he
      exact mem_dropW hr (by decide)
    case isFalse => exact h

lemma mem_stripNumber {cs : List Char} (h : ':' ∈ cs) : ':' ∈ stripNumber cs := by
  unfold stripNumber
  split
  · exact h
  · split
    · exact h
    case h_2 c0 rest heq =>
      split
      case isTrue hb =>
        have h1 : ':' ∈ dropW Char.isDigit (dropW pyIsSpace cs) :=
          mem_dropW (mem_dropW h (by decide)) (by decide)
        rw [heq] at h1
        have hr : ':' ∈ rest := by
          rcases List.mem_cons.mp h1 with he | he
          · exfalso
            simp only [Bool.or_eq_true, decide_eq_true_eq] at hb
            rcases hb with rfl | rfl <;> exact absurd he (by decide)
          · exact he
        exact mem_dropW hr (by decide)
      case isFalse => exact h

lemma stripBullet_alpha {a : Char} {t : List Char} (ha : a.isAlpha = true) :
    stripBullet (a :: t) = a :: t := by
  unfold stripBullet
  rw [dropW_head_false _ (alpha_not_space ha)]
  have h1 : a ≠ '-' := alpha_ne ha (by decide)
  have h2 : a ≠ '•' := alpha_ne ha (by decide)
  have h3 : a ≠ '*' := alpha_ne ha (by decide)
  simp [h1, h2, h3]

lemma stripNumber_alpha {a : Char} {t : List Char} (ha : a.isAlpha = true) :
    stripNumber (a :: t) = a :: t := by
  unfold stripNumber
  rw [dropW_head_false _ (alpha_not_space ha), takeW_head_false _ (alpha_not_digit ha)]
  simp

lemma pyStrip_alpha {a : Char} {t : List Char} (ha : a.isAlpha = true)
    (hlast : ∀ c, (a :: t).getLast? = some c → pyIsSpace c = false) :
    pyStrip (a :: t) = a :: t :=
  pyStrip_eq_self
    (fun c hc => by
      simp only [List.head?] at hc
      cases hc
      exact alpha_not_space ha)
    hlast

lemma parseLine_some {cs l2 part ds : List Char}
    (hstrip : pyStrip cs = cs)
    (hcolon : ':' ∈ cs)
    (hproc : pyStrip (stripNumber (stripBullet cs)) = l2)
    (hA : matchPatternA l2 = some (part, ds)) :
    parseLine cs = some (String.mk part, digitsToInt ds) := by
  unfold parseLine
  rw [hstrip, hproc, hA]
  have hne : cs.isEmpty = false := by
    cases cs
    · cases hcolon
    · rfl
  rw [hne, hasColon_iff.mpr hcolon]
  simp

lemma parseLine_none {cs : List Char}
    (hcolon : ':' ∈ pyStrip cs)
    (hA : matchPatternA (pyStrip (stripNumber (stripBullet (pyStrip cs)))) = none) :
    parseLine cs = none := by
  unfold parseLine
  have hne : (pyStrip cs).isEmpty = false := by
    cases hp : pyStrip cs
    · rw [hp] at hcolon; cases hcolon
    · rfl
  have hmem : ':' ∈ pyStrip (stripNumber (stripBullet (pyStrip cs))) :=
    mem_pyStrip (mem_stripNumber (mem_stripBullet hcolon)) (by decide)
  have hB : matchPatternB (pyStrip (stripNumber (stripBullet (pyStrip cs)))) = none := by
    cases hb : matchPatternB (pyStrip (stripNumber (stripBullet (pyStrip cs)))) with
    | none => rfl
    | some x =>
      exfalso
      have hch := matchPartQty_chars hb ':' hmem
      rcases hch with hch | hch | hch | hch | hch <;> exact absurd hch (by decide)
  rw [hne, hasColon_iff.mpr hcolon, hA, hB]
  simp

lemma parse_parts_list_mk {cs : List Char}
    (hstrip : pyStrip cs = cs) (hnl : ∀ c ∈ cs, c ≠ '\n') :
    parse_parts_list (String.mk cs) = (parseLine cs).toList := by
  unfold parse_parts_list
  have hdata : (String.mk cs).data = cs := rfl
  rw [hdata, hstrip, splitLines_single hnl]
  cases h : parseLine cs <;> simp [h]

lemma parseLine_quantity {cs : List Char} {pq : String × Int}
    (h : parseLine cs = some pq) : ∃ ds, pq.2 = digitsToInt ds := by
  unfold parseLine at h
  split at h
  · cases h
  · split at h
    · cases h
    · split at h
      case h_1 part ds hA =>
        cases h
        exact ⟨ds, rfl⟩
      case h_2 =>
        split at h
        case h_1 part ds hB =>
          cases h
          exact ⟨ds, rfl⟩
        case h_2 => cases h

lemma digitsToInt_nonneg (ds : List Char) : 0 ≤ digitsToInt ds :=
  Int.natCast_nonneg _

lemma digit_ne {c d : Char} (h : c.isDigit = true) (hd : d.isDigit = false) : c ≠ d := by
  intro he
  rw [he, hd] at h
  cases h

lemma no_newline_core {ls d3 d2 rest : List Char}
    (hla : ∀ c ∈ ls, c.isAlpha = true)
    (h3d : ∀ c ∈ d3, c.isDigit = true)
    (h2d : ∀ c ∈ d2, c.isDigit = true)
    (hrest : ∀ c ∈ rest, c ≠ '\n') :
    ∀ c ∈ ls ++ '-' :: (d3 ++ '-' :: (d2 ++ ':' :: ' ' :: rest)), c ≠ '\n' := by
  intro c hc
  simp only [List.mem_append, List.mem_cons] at hc
  rcases hc with hc | rfl | hc | rfl | hc | rfl | rfl | hc
  · exact alpha_ne (hla c hc) (by decide)
  · decide
  · exact digit_ne (h3d c hc) (by decide)
  · decide
  · exact digit_ne (h2d c hc) (by decide)
  · decide
  · decide
  · exact hrest c hc

lemma getLast?_core {ls d3 d2 rest : List Char} (hrest : rest ≠ []) :
    (ls ++ '-' :: (d3 ++ '-' :: (d2 ++ ':' :: ' ' :: rest))).getLast? = rest.getLast? := by
  rw [List.getLast?_append_cons, ← List.cons_append, List.getLast?_append_cons,
    ← List.cons_append, List.getLast?_append_cons, List.getLast?_cons_cons]
  obtain ⟨x, xs, rfl⟩ := List.exists_cons_of_ne_nil hrest
  rw [List.getLast?_cons_cons]

lemma parse_single_alpha {cs part ds : List Char} (a : Char) (t : List Char)
    (hcs : cs = a :: t) (ha : a.isAlpha = true)
    (hlast : ∀ c, cs.getLast? = some c → pyIsSpace c = false)
    (hnl : ∀ c ∈ cs, c ≠ '\n')
    (hcolon : ':' ∈ cs)
    (hA : matchPatternA cs = some (part, ds)) :
    parse_parts_list (String.mk cs) = [(String.mk part, digitsToInt ds)] := by
  subst hcs
  have hstrip : pyStrip (a :: t) = a :: t := pyStrip_alpha ha hlast
  have hb : stripBullet (a :: t) = a :: t := stripBullet_alpha ha
  have hn : stripNumber (a :: t) = a :: t := stripNumber_alpha ha
  have hl : parseLine (a :: t) = some (String.mk part, digitsToInt ds) :=
    parseLine_some hstrip hcolon (by rw [hb, hn, hstrip]) hA
  rw [parse_parts_list_mk hstrip hnl, hl]
  rfl

lemma parse_single_bullet {cs part ds : List Char} (a : Char) (t : List Char)
    (hcs : cs = a :: t) (ha : a.isAlpha = true)
    (hlast : ∀ c, cs.getLast? = some c → pyIsSpace c = false)
    (hnl : ∀ c ∈ cs, c ≠ '\n')
    (hcolon : ':' ∈ cs)
    (hA : matchPatternA cs = some (part, ds)) :
    parse_parts_list (String.mk ('-' :: ' ' :: cs)) = [(String.mk part, digitsToInt ds)] := by
  subst hcs
  have hsp : dropW pyIsSpace (' ' :: a :: t) = a :: t := by
    simp only [dropW, if_pos (show pyIsSpace ' ' = true from by decide)]
    exact dropW_head_false _ (alpha_not_space ha)
  have hstrip : pyStrip ('-' :: ' ' :: a :: t) = '-' :: ' ' :: a :: t :=
    pyStrip_eq_self
      (fun c hc => by
        simp only [List.head?] at hc
        cases hc
        decide)
      (fun c hc => by
        rw [show ('-' :: ' ' :: a :: t).getLast? = (a :: t).getLast? from by
          simp [List.getLast?_cons_cons]] at hc
        exact hlast c hc)
  have hsb : stripBullet ('-' :: ' ' :: a :: t) = a :: t := by
    unfold stripBullet
    rw [dropW_head_false _ (by decide)]
    simp [hsp]
  have hl2 : pyStrip (stripNumber (stripBullet ('-' :: ' ' :: a :: t))) = a :: t := by
    rw [hsb, stripNumber_alpha ha, pyStrip_alpha ha hlast]
  have hcolon2 : ':' ∈ '-' :: ' ' :: a :: t := by
    simp only [List.mem_cons]
    exact Or.inr (Or.inr (by simpa using hcolon))
  have hl : parseLine ('-' :: ' ' :: a :: t) = some (String.mk part, digitsToInt ds) :=
    parseLine_some hstrip hcolon2 hl2 hA
  have hnl2 : ∀ c ∈ '-' :: ' ' :: a :: t, c ≠ '\n' := by
    intro c hc
    rcases List.mem_cons.mp hc with rfl | hc
    · decide
    · rcases List.mem_cons.mp hc with rfl | hc
      · decide
      · exact hnl c hc
  rw [parse_parts_list_mk hstrip hnl2, hl]
  rfl

lemma parse_single_numbered {cs part ds : List Char} (a : Char) (t : List Char)
    (hcs : cs = a :: t) (ha : a.isAlpha = true)
    (hlast : ∀ c, cs.getLast? = some c → pyIsSpace c = false)
    (hnl : ∀ c ∈ cs, c ≠ '\n')
    (hcolon : ':' ∈ cs)
    (hA : matchPatternA cs = some (part, ds)) :
    parse_parts_list (String.mk ('1' :: '.' :: ' ' :: cs)) =
      [(String.mk part, digitsToInt ds)] := by
  subst hcs
  have hsp : dropW pyIsSpace (' ' :: a :: t) = a :: t := by
    simp only [dropW, if_pos (show pyIsSpace ' ' = true from by decide)]
    exact dropW_head_false _ (alpha_not_space ha)
  have hstrip : pyStrip ('1' :: '.' :: ' ' :: a :: t) = '1' :: '.' :: ' ' :: a :: t :=
    pyStrip_eq_self
      (fun c hc => by
        simp only [List.head?] at hc
        cases hc
        decide)
      (fun c hc => by
        rw [show ('1' :: '.' :: ' ' :: a :: t).getLast? = (a :: t).getLast? from by
          simp [List.getLast?_cons_cons]] at hc
        exact hlast c hc)
  have hsb : stripBullet ('1' :: '.' :: ' ' :: a :: t) = '1' :: '.' :: ' ' :: a :: t := by
    unfold stripBullet
    rw [dropW_head_false _ (by decide)]
    simp
  have hsn : stripNumber ('1' :: '.' :: ' ' :: a :: t) = a :: t := by
    unfold stripNumber
    rw [dropW_head_false _ (by decide)]
    have ht : takeW Char.isDigit ('1' :: '.' :: ' ' :: a :: t) = ['1'] := by
      simp [takeW]
    have hd : dropW Char.isDigit ('1' :: '.' :: ' ' :: a :: t) = '.' :: ' ' :: a :: t := by
      simp [dropW]
    rw [ht, hd]
    simp [hsp]
  have hl2 : pyStrip (stripNumber (stripBullet ('1' :: '.' :: ' ' :: a :: t))) = a :: t := by
    rw [hsb, hsn, pyStrip_alpha ha hlast]
  have hcolon2 : ':' ∈ '1' :: '.' :: ' ' :: a :: t := by
    simp only [List.mem_cons]
    exact Or.inr (Or.inr (Or.inr (by simpa using hcolon)))
  have hl : parseLine ('1' :: '.' :: ' ' :: a :: t) = some (String.mk part, digitsToInt ds) :=
    parseLine_some hstrip hcolon2 hl2 hA
  have hnl2 : ∀ c ∈ '1' :: '.' :: ' ' :: a :: t, c ≠ '\n' := by
    intro c hc
    rcases List.mem_cons.mp hc with rfl | hc
    · decide
    · rcases List.mem_cons.mp hc with rfl | hc
      · decide
      · rcases List.mem_cons.mp hc with rfl | hc
        · decide
        · exact hnl c hc
  rw [parse_parts_list_mk hstrip hnl2, hl]
  rfl

/-! ### Lemmas about the ordering loop -/

lemma orderStep_eq (store : Store) (acc : List OrderLine × ℚ) (p : String × Int) :
    orderStep store acc p =
      (acc.1 ++ (orderForPart store p).toList,
       acc.2 + ((orderForPart store p).toList.map lineCost).sum) := by
  unfold orderStep orderForPart
  cases store p.1 with
  | none => simp [lineCost]
  | some r =>
    by_cases hlt : r.current_stock < p.2
    · simp [hlt, lineCost]
    · simp [hlt]

lemma generateOrder_foldl (store : Store) (parts : List (String × Int)) :
    ∀ acc : List OrderLine × ℚ,
      parts.foldl (orderStep store) acc =
        (acc.1 ++ parts.filterMap (orderForPart store),
         acc.2 + ((parts.filterMap (orderForPart store)).map lineCost).sum) := by
  induction parts with
  | nil => intro acc; simp
  | cons p rest ih =>
    intro acc
    rw [List.foldl_cons, orderStep_eq, ih]
    cases ho : orderForPart store p with
    | none => simp [List.filterMap_cons, ho]
    | some l => simp [List.filterMap_cons, ho, add_assoc]

lemma generateOrder_eq (store : Store) (parts : List (String × Int)) :
    generateOrder store parts =
      (parts.filterMap (orderForPart store),
       ((parts.filterMap (orderForPart store)).map lineCost).sum) := by
  unfold generateOrder
  rw [generateOrder_foldl]
  simp

/-! ### Example stores used to instantiate the theorems -/

/-- A one-row `parts_stock` table. -/
def singleStore (pn : String) (r : StockRecord) : Store :=
  fun s => if s = pn then some r else none

/-- An empty `parts_stock` table. -/
def emptyStore : Store := fun _ => none

/-! ### The claims -/

/-- Claim C1: for every part request whose part is found in the store,
`check_parts_stock` classifies it by exactly this cascade: if
`current_stock ≥ quantity_needed` the status is IN STOCK with
`needs_order = false` (independently of `reorder_point`); otherwise if
`current_stock ≥ reorder_point` the status is LOW STOCK with
`needs_order = true`; otherwise the status is OUT OF STOCK with
`needs_order = true`. -/
theorem C1_stock_classification (store : Store) (part : String) (qty : Int)
    (r : StockRecord) (hfound : store part = some r) :
    (r.current_stock ≥ qty →
      (assessPart store (part, qty)).status = "IN STOCK" ∧
      (assessPart store (part, qty)).needs_order = false) ∧
    (¬ r.current_stock ≥ qty → r.current_stock ≥ r.reorder_point →
      (assessPart store (part, qty)).status = "LOW STOCK" ∧
      (assessPart store (part, qty)).needs_order = true) ∧
    (¬ r.current_stock ≥ qty → ¬ r.current_stock ≥ r.reorder_point →
      (assessPart store (part, qty)).status = "OUT OF STOCK" ∧
      (assessPart store (part, qty)).needs_order = true) := by
  refine ⟨fun h1 => ?_, fun h1 h2 => ?_, fun h1 h2 => ?_⟩
  · simp [assessPart, hfound, h1]
  · simp [assessPart, hfound, h1, h2]
  · simp [assessPart, hfound, h1, h2]

/-- Witness for C1 at a concrete store and request. -/
theorem C1_stock_classification_witness :
    (assessPart (singleStore "BEAR-003-01" ⟨"BEAR-003-01", "bearing", 5, 2, 3, 10, "Acme"⟩)
        ("BEAR-003-01", 2)).status = "IN STOCK" ∧
    (assessPart (singleStore "BEAR-003-01" ⟨"BEAR-003-01", "bearing", 5, 2, 3, 10, "Acme"⟩)
        ("BEAR-003-01", 2)).needs_order = false :=
  (C1_stock_classification
      (singleStore "BEAR-003-01" ⟨"BEAR-003-01", "bearing", 5, 2, 3, 10, "Acme"⟩)
      "BEAR-003-01" 2 ⟨"BEAR-003-01", "bearing", 5, 2, 3, 10, "Acme"⟩ (by decide)).1
    (by decide)

/-- Claim C2: for every found part for which the order loop emits an order
line, the order quantity equals `quantity_needed - current_stock` when
`current_stock ≥ reorder_point`, and equals
`max (quantity_needed - current_stock) (reorder_point - current_stock + 2)`
when `current_stock < reorder_point`; in particular the order quantity is
always ≥ `quantity_needed - current_stock` when that difference is
positive, and ≥ `reorder_point - current_stock + 2` whenever
`current_stock < reorder_point`. -/
theorem C2_order_quantity (store : Store) (p : String × Int) (r : StockRecord)
    (l : OrderLine) (hfound : store p.1 = some r)
    (hline : orderForPart store p = some l) :
    (r.current_stock ≥ r.reorder_point → l.order_quantity = p.2 - r.current_stock) ∧
    (r.current_stock < r.reorder_point →
      l.order_quantity =
        max (p.2 - r.current_stock) (r.reorder_point - r.current_stock + 2)) ∧
    (0 < p.2 - r.current_stock → p.2 - r.current_stock ≤ l.order_quantity) ∧
    (r.current_stock < r.reorder_point →
      r.reorder_point - r.current_stock + 2 ≤ l.order_quantity) := by
  unfold orderForPart at hline
  rw [hfound] at hline
  dsimp only at hline
  by_cases hlt : r.current_stock < p.2
  · rw [if_pos hlt] at hline
    injection hline with hl
    subst hl
    refine ⟨fun hge => ?_, fun hltr => ?_, fun _ => ?_, fun hltr => ?_⟩
    · have hrp : ¬ r.current_stock < r.reorder_point := not_lt.mpr hge
      simp [hrp]
    · simp [hltr]
    · by_cases hrp : r.current_stock < r.reorder_point
      · simp [hrp, le_max_left]
      · simp [hrp]
    · simp [hltr, le_max_right]
  · rw [if_neg hlt] at hline
    cases hline

/-- Witness for C2 at a concrete store and request: stock 1, reorder point
4, 6 needed, so the emitted quantity 5 is at least the shortfall 6 - 1. -/
theorem C2_order_quantity_witness :
    (0 : Int) < 6 - 1 ∧
    (6 : Int) - 1 ≤
      (⟨"SEAL-003-02", "seal", 6, 1, 5, 3, 15, "Acme"⟩ : OrderLine).order_quantity :=
  ⟨by decide,
   (C2_order_quantity
       (singleStore "SEAL-003-02" ⟨"SEAL-003-02", "seal", 1, 2, 4, 3, "Acme"⟩)
       ("SEAL-003-02", 6) ⟨"SEAL-003-02", "seal", 1, 2, 4, 3, "Acme"⟩
       ⟨"SEAL-003-02", "seal", 6, 1, 5, 3, 15, "Acme"⟩
       (by decide) (by norm_num [orderForPart, singleStore])).2.2.1 (by decide)⟩

/-- Claim C4 fails on the code: `minimum_stock` is never consulted by
`check_parts_stock`. With `current_stock = 2 < minimum_stock = 3 ≤
reorder_point = 5` but `quantity_needed = 1`, the classification is
IN STOCK, not OUT OF STOCK. -/
theorem C4_counterexample :
    ((2 : Int) < 3 ∧ (3 : Int) ≤ 5) ∧
    (assessPart (singleStore "BEAR-003-01" ⟨"BEAR-003-01", "bearing", 2, 3, 5, 10, "Acme"⟩)
        ("BEAR-003-01", 1)).status = "IN STOCK" ∧
    (assessPart (singleStore "BEAR-003-01" ⟨"BEAR-003-01", "bearing", 2, 3, 5, 10, "Acme"⟩)
        ("BEAR-003-01", 1)).status ≠ "OUT OF STOCK" := by
  refine ⟨⟨by decide, by decide⟩, by decide, by decide⟩

/-- Claim C4 as amended: for every found record with
`current_stock < minimum_stock ≤ reorder_point` **and**
`current_stock < quantity_needed`, the classification is OUT OF STOCK
(the code compares only against `quantity_needed` and `reorder_point`;
`current_stock < minimum_stock ≤ reorder_point` then forces the final
branch). -/
theorem C4_amended (store : Store) (part : String) (qty : Int) (r : StockRecord)
    (hfound : store part = some r)
    (hmin : r.current_stock < r.minimum_stock)
    (hmr : r.minimum_stock ≤ r.reorder_point)
    (hneed : r.current_stock < qty) :
    (assessPart store (part, qty)).status = "OUT OF STOCK" ∧
    (assessPart store (part, qty)).needs_order = true := by
  have h1 : ¬ r.current_stock ≥ qty := not_le.mpr hneed
  have h2 : ¬ r.current_stock ≥ r.reorder_point :=
    not_le.mpr (lt_of_lt_of_le hmin hmr)
  simp [assessPart, hfound, h1, h2]

/-- Witness for the amended C4. -/
theorem C4_amended_witness :
    (assessPart (singleStore "BEAR-003-01" ⟨"BEAR-003-01", "bearing", 2, 3, 5, 10, "Acme"⟩)
        ("BEAR-003-01", 3)).status = "OUT OF STOCK" ∧
    (assessPart (singleStore "BEAR-003-01" ⟨"BEAR-003-01", "bearing", 2, 3, 5, 10, "Acme"⟩)
        ("BEAR-003-01", 3)).needs_order = true :=
  C4_amended (singleStore "BEAR-003-01" ⟨"BEAR-003-01", "bearing", 2, 3, 5, 10, "Acme"⟩)
    "BEAR-003-01" 3 ⟨"BEAR-003-01", "bearing", 2, 3, 5, 10, "Acme"⟩
    (by decide) (by decide) (by decide) (by decide)

/-- Claim C5 fails on the code: the quantity regex `(\d+)` also matches
`"0"`, so the parser can return a pair with quantity 0. -/
theorem C5_counterexample :
    parse_parts_list "BEAR-003-01: 0" = [("BEAR-003-01", 0)] := by
  rfl

/-- Claim C5 as amended: every pair returned by `parse_parts_list` has a
non-negative quantity (the digits of the matched line parsed as a
non-negative integer); quantity 0 is possible. -/
theorem C5_amended (input : String) (pq : String × Int)
    (h : pq ∈ parse_parts_list input) : 0 ≤ pq.2 := by
  unfold parse_parts_list at h
  obtain ⟨cs, _, hline⟩ := List.mem_filterMap.mp h
  obtain ⟨ds, hds⟩ := parseLine_quantity hline
  rw [hds]
  exact digitsToInt_nonneg ds

/-- Witness for the amended C5. -/
theorem C5_amended_witness : (0 : Int) ≤ (("BEAR-003-01", (2 : Int)) : String × Int).2 :=
  C5_amended "BEAR-003-01: 2" ("BEAR-003-01", 2) (by decide)

/-- Claim C6: for every part request whose part number is absent from the
store, `check_parts_stock` produces status NOT FOUND, `needs_order = true`,
`current_stock = 0`, `unit_cost = 0` and supplier "Unknown", and
`generate_procurement_order` emits an order line with
`order_quantity = quantity_needed + 2`, zero unit cost and zero total
cost, so contributing 0 to the aggregate total cost. -/
theorem C6_not_found (store : Store) (part : String) (qty : Int)
    (habsent : store part = none) :
    ((assessPart store (part, qty)).status = "NOT FOUND" ∧
     (assessPart store (part, qty)).needs_order = true ∧
     (assessPart store (part, qty)).current_stock = 0 ∧
     (assessPart store (part, qty)).unit_cost = 0 ∧
     (assessPart store (part, qty)).supplier = "Unknown") ∧
    orderForPart store (part, qty) =
      some { part_number := part, description := "Not in procurement system",
             quantity_needed := qty, current_stock := 0, order_quantity := qty + 2,
             unit_cost := 0, total_cost := 0, supplier := "Unknown" } ∧
    (∀ l, orderForPart store (part, qty) = some l → lineCost l = 0) := by
  refine ⟨?_, ?_, ?_⟩
  · simp [assessPart, habsent]
  · simp [orderForPart, habsent]
  · intro l hl
    simp only [orderForPart, habsent] at hl
    injection hl with hl
    rw [← hl]
    simp [lineCost]

/-- Witness for C6 on the empty store. -/
theorem C6_not_found_witness :
    (assessPart emptyStore ("XXXX-999-99", 4)).status = "NOT FOUND" ∧
    orderForPart emptyStore ("XXXX-999-99", 4) =
      some { part_number := "XXXX-999-99", description := "Not in procurement system",
             quantity_needed := 4, current_stock := 0, order_quantity := 4 + 2,
             unit_cost := 0, total_cost := 0, supplier := "Unknown" } :=
  ⟨(C6_not_found emptyStore "XXXX-999-99" 4 rfl).1.1,
   (C6_not_found emptyStore "XXXX-999-99" 4 rfl).2.1⟩

/-- Claim C7: the `total_cost` accumulated by `generate_procurement_order`
equals the sum of `order_quantity × unit_cost` over exactly the order
lines it returns; assessments with `needs_order = false` produce no order
line. -/
theorem C7_total_cost (store : Store) (parts : List (String × Int)) :
    (generateOrder store parts).1 = parts.filterMap (orderForPart store) ∧
    (generateOrder store parts).2 = ((generateOrder store parts).1.map lineCost).sum ∧
    (∀ p ∈ parts, (assessPart store p).needs_order = false →
      orderForPart store p = none) := by
  have he := generateOrder_eq store parts
  refine ⟨?_, ?_, ?_⟩
  · rw [he]
  · rw [he]
  · intro p _ hno
    cases hs : store p.1 with
    | none =>
      exfalso
      simp [assessPart, hs] at hno
    | some r =>
      by_cases hge : r.current_stock ≥ p.2
      · have hnl : ¬ r.current_stock < p.2 := not_lt.mpr hge
        simp [orderForPart, hs, hnl]
      · exfalso
        by_cases hrp : r.current_stock ≥ r.reorder_point
        · simp [assessPart, hs, hge, hrp] at hno
        · simp [assessPart, hs, hge, hrp] at hno

/-- Witness for C7: an in-stock assessment yields no order line. -/
theorem C7_total_cost_witness :
    orderForPart (singleStore "BEAR-003-01" ⟨"BEAR-003-01", "bearing", 5, 2, 3, 10, "Acme"⟩)
      ("BEAR-003-01", 2) = none :=
  (C7_total_cost (singleStore "BEAR-003-01" ⟨"BEAR-003-01", "bearing", 5, 2, 3, 10, "Acme"⟩)
      [("BEAR-003-01", 2)]).2.2 ("BEAR-003-01", 2) (by decide) (by decide)

/-- Claim C3: the function's docstring (and the spec) promise that
dash-separated lines `PART - QTY` are parsed, but the parser skips every
line without a colon before pattern B is ever tried, and pattern B can
never match a line that contains a colon — so the dash form
"SEAL-003-02 - 1" yields nothing even though the dash regex itself
matches it. -/
theorem C3_dash_line_dropped :
    parse_parts_list "SEAL-003-02 - 1" = [] ∧
    matchPatternB ("SEAL-003-02 - 1".data) = some ("SEAL-003-02".data, ['1']) := by
  constructor
  · rfl
  · rfl

/-- Claim C10: the part-code match is case-insensitive but the parser
returns the part number verbatim, so a lower-case code reaches the
exact-match stock lookup unchanged and misses an upper-case record. -/
theorem C10_case_preserved :
    parse_parts_list "bear-003-01: 2" = [("bear-003-01", 2)] ∧
    stockStatus (singleStore "BEAR-003-01" ⟨"BEAR-003-01", "bearing", 5, 2, 3, 10, "Acme"⟩)
        (parse_parts_list "bear-003-01: 2") =
      [assessPart (singleStore "BEAR-003-01" ⟨"BEAR-003-01", "bearing", 5, 2, 3, 10, "Acme"⟩)
        ("bear-003-01", 2)] ∧
    (assessPart (singleStore "BEAR-003-01" ⟨"BEAR-003-01", "bearing", 5, 2, 3, 10, "Acme"⟩)
        ("bear-003-01", 2)).status = "NOT FOUND" := by
  refine ⟨rfl, rfl, by decide⟩

/-- Claim C8: every line of the colon-separated form `PART: QTY` with an
optional trailing word — the part code being ASCII letters of either case
followed by `-ddd-dd`, possibly behind a bullet (`- `) or numbered
(`1. `) list marker — parses to exactly `(PART, QTY)`; every other
colon-containing line is silently dropped (pattern B can never fire on
such a line, so a failed pattern A means the line contributes nothing). -/
theorem C8_colon_parsing :
    (∀ ls d3 d2 qs ws : List Char,
      ls ≠ [] → (∀ c ∈ ls, c.isAlpha = true) →
      d3.length = 3 → (∀ c ∈ d3, c.isDigit = true) →
      d2.length = 2 → (∀ c ∈ d2, c.isDigit = true) →
      qs ≠ [] → (∀ c ∈ qs, c.isDigit = true) →
      ws ≠ [] → (∀ c ∈ ws, c.isAlpha = true) →
      (parse_parts_list (String.mk (ls ++ '-' :: (d3 ++ '-' :: (d2 ++ ':' :: ' ' :: qs)))) =
          [(String.mk (ls ++ '-' :: (d3 ++ '-' :: d2)), digitsToInt qs)] ∧
       parse_parts_list (String.mk (ls ++ '-' :: (d3 ++ '-' :: (d2 ++ ':' :: ' ' ::
            (qs ++ ' ' :: ws))))) =
          [(String.mk (ls ++ '-' :: (d3 ++ '-' :: d2)), digitsToInt qs)] ∧
       parse_parts_list (String.mk ('-' :: ' ' :: (ls ++ '-' :: (d3 ++ '-' ::
            (d2 ++ ':' :: ' ' :: qs))))) =
          [(String.mk (ls ++ '-' :: (d3 ++ '-' :: d2)), digitsToInt qs)] ∧
       parse_parts_list (String.mk ('1' :: '.' :: ' ' :: (ls ++ '-' :: (d3 ++ '-' ::
            (d2 ++ ':' :: ' ' :: qs))))) =
          [(String.mk (ls ++ '-' :: (d3 ++ '-' :: d2)), digitsToInt qs)])) ∧
    (∀ line : List Char, ':' ∈ pyStrip line →
      matchPatternA (pyStrip (stripNumber (stripBullet (pyStrip line)))) = none →
      parseLine line = none) := by
  constructor
  · intro ls d3 d2 qs ws hls hla h3 h3d h2 h2d hqs hqd hws hwa
    obtain ⟨a, lt, rfl⟩ := List.exists_cons_of_ne_nil hls
    have ha : a.isAlpha = true := hla a (List.mem_cons_self a lt)
    have hA1 := matchPartQty_complete_plain ':' (by decide) hls hla h3 h3d h2 h2d hqs hqd
    have hA2 := matchPartQty_complete_word ':' (by decide) hls hla h3 h3d h2 h2d hqs hqd hws hwa
    have hlast1 : ∀ c,
        ((a :: lt) ++ '-' :: (d3 ++ '-' :: (d2 ++ ':' :: ' ' :: qs))).getLast? = some c →
        pyIsSpace c = false := by
      intro c hc
      rw [getLast?_core hqs] at hc
      exact digit_not_space (hqd c (List.mem_of_getLast?_eq_some hc))
    have hlast2 : ∀ c,
        ((a :: lt) ++ '-' :: (d3 ++ '-' :: (d2 ++ ':' :: ' ' ::
          (qs ++ ' ' :: ws)))).getLast? = some c →
        pyIsSpace c = false := by
      obtain ⟨w, wt, rfl⟩ := List.exists_cons_of_ne_nil hws
      intro c hc
      rw [getLast?_core (by simp), List.getLast?_append_cons,
        List.getLast?_cons_cons] at hc
      exact alpha_not_space (hwa c (List.mem_of_getLast?_eq_some hc))
    have hnl1 : ∀ c ∈ (a :: lt) ++ '-' :: (d3 ++ '-' :: (d2 ++ ':' :: ' ' :: qs)),
        c ≠ '\n' :=
      no_newline_core hla h3d h2d (fun c hc => digit_ne (hqd c hc) (by decide))
    have hnl2 : ∀ c ∈ (a :: lt) ++ '-' :: (d3 ++ '-' :: (d2 ++ ':' :: ' ' ::
        (qs ++ ' ' :: ws))), c ≠ '\n' :=
      no_newline_core hla h3d h2d
        (fun c hc => by
          rcases List.mem_append.mp hc with hc | hc
          · exact digit_ne (hqd c hc) (by decide)
          · rcases List.mem_cons.mp hc with rfl | hc
            · decide
            · exact alpha_ne (hwa c hc) (by decide))
    have hcolon1 : ':' ∈ (a :: lt) ++ '-' :: (d3 ++ '-' :: (d2 ++ ':' :: ' ' :: qs)) := by
      simp
    have hcolon2 : ':' ∈ (a :: lt) ++ '-' :: (d3 ++ '-' :: (d2 ++ ':' :: ' ' ::
        (qs ++ ' ' :: ws))) := by
      simp
    refine ⟨?_, ?_, ?_, ?_⟩
    · exact parse_single_alpha a _ (List.cons_append a lt _) ha hlast1 hnl1 hcolon1 hA1
    · exact parse_single_alpha a _ (List.cons_append a lt _) ha hlast2 hnl2 hcolon2 hA2
    · exact parse_single_bullet a _ (List.cons_append a lt _) ha hlast1 hnl1 hcolon1 hA1
    · exact parse_single_numbered a _ (List.cons_append a lt _) ha hlast1 hnl1 hcolon1 hA1
  · intro line hc hA
    exact parseLine_none hc hA

/-- Witness for C8: the concrete line "BEAR-003-01: 2" parses, and the
colon-containing line "random: stuff" is silently dropped. -/
theorem C8_colon_parsing_witness :
    parse_parts_list "BEAR-003-01: 2" = [("BEAR-003-01", 2)] ∧
    parseLine ("random: stuff".data) = none := by
  constructor
  · have h := (C8_colon_parsing.1 ['B', 'E', 'A', 'R'] ['0', '0', '3'] ['0', '1']
      ['2'] ['u', 'n', 'i', 't', 's'] (by decide) (by decide) (by decide) (by decide)
      (by decide) (by decide) (by decide) (by decide) (by decide) (by decide)).1
    exact h
  · exact C8_colon_parsing.2 ("random: stuff".data) (by decide) (by decide)

/-- Claim C9: for every input string and every behaviour of the
reference-data store, the two tools return a message string and never
propagate an exception: when the parsed-parts list is empty each returns
the "no valid parts" message before touching the store (even a failing
store); on a lookup failure each returns a single aggregate failure
message built from the exception text, with no partial per-part
results. -/
theorem C9_error_handling (input : String) (e : String) :
    (parse_parts_list input = [] →
      (∀ store : StoreBehaviour, check_parts_stock store input = noValidPartsMsg) ∧
      (∀ store : StoreBehaviour, generate_procurement_order store input = noValidPartsMsg)) ∧
    (parse_parts_list input ≠ [] →
      check_parts_stock (Except.error e) input = "Error checking parts stock: " ++ e ∧
      generate_procurement_order (Except.error e) input =
        "Error generating procurement order: " ++ e) := by
  constructor
  · intro hemp
    have hie : (parse_parts_list input).isEmpty = true := by simp [hemp]
    exact ⟨fun store => by simp [check_parts_stock, checkPartsStockE, hie],
           fun store => by simp [generate_procurement_order, generateOrderE, hie]⟩
  · intro hne
    have hie : (parse_parts_list input).isEmpty = false := by
      cases h : parse_parts_list input
      · exact absurd h hne
      · rfl
    exact ⟨by simp [check_parts_stock, checkPartsStockE, hie],
           by simp [generate_procurement_order, generateOrderE, hie]⟩

/-- Witness for C9 at concrete inputs and a concrete failing store. -/
theorem C9_error_handling_witness :
    check_parts_stock (Except.error "connection refused") "no parts here" =
      noValidPartsMsg ∧
    generate_procurement_order (Except.error "connection refused") "BEAR-003-01: 2" =
      "Error generating procurement order: " ++ "connection refused" :=
  ⟨((C9_error_handling "no parts here" "connection refused").1 (by rfl)).1
      (Except.error "connection refused"),
   ((C9_error_handling "BEAR-003-01: 2" "connection refused").2 (by decide)).2⟩
